import Mathlib

/-!
Shallow embedding of the AIS-ARPA matching engine of the
listen-websocket-fastapi repository: the scorer and candidate builder from
src/matching.py, the assigner from src/matching.py built on a model of
scipy.optimize.linear_sum_assignment, orchestrator fragments from
app/controllers/matching_controller.py, the time parser from src/geo.py,
and the data cache from app/services/cache.py.

Float arithmetic of the source is embedded as exact arithmetic: the
transcendental scorer over ℝ, while the purely combinatorial assigner is
embedded over an arbitrary linearly ordered field so that it can also be
run at ℚ.
-/

namespace ListenWS

/-- Python float modulus `a % b` for positive `b`: `a - b * ⌊a / b⌋`
(the result takes the sign of `b`). -/
noncomputable def pythonMod (a b : ℝ) : ℝ := a - b * ⌊a / b⌋

/-- Embeds `angle_diff_deg` (src/matching.py): minimal absolute angle
difference between `a` and `b` in degrees. -/
noncomputable def angle_diff_deg (a b : ℝ) : ℝ :=
  let d := |pythonMod (a - b) 360|
  if d > 180 then 360 - d else d

/-- Embeds the `ScoringParams` dataclass (src/matching.py) with its
declared field defaults. -/
structure ScoringParams where
  pos_sigma_m : ℝ := 150
  spd_sigma_ms : ℝ := 1.5
  hdg_sigma_deg : ℝ := 20
  time_sigma_s : ℝ := 30
  w_pos : ℝ := 0.5
  w_spd : ℝ := 0.15
  w_brg : ℝ := 0.15
  w_time : ℝ := 0.2
  range_sigma_m : ℝ := 0
  brg_geo_sigma_deg : ℝ := 0
  w_range : ℝ := 0
  w_brg_geo : ℝ := 0

/-- Fields of an AIS dataframe row that `extract_features` and
`build_candidates` (src/matching.py) read; the optional site-relative
geometry columns may be absent. -/
structure AisRow where
  ais_id : String
  x : ℝ
  y : ℝ
  sog_ms : ℝ
  cog_deg : ℝ
  timestamp_s : ℝ
  r_site_m : Option ℝ := Option.none
  brg_site_deg : Option ℝ := Option.none

/-- Fields of an ARPA dataframe row that `extract_features` and
`build_candidates` (src/matching.py) read; the optional measured
range/bearing columns may be absent. -/
structure ArpaRow where
  arpa_id : String
  x : ℝ
  y : ℝ
  speed_ms : ℝ
  heading_deg : ℝ
  timestamp_s : ℝ
  r_meas_m : Option ℝ := Option.none
  brg_meas_deg : Option ℝ := Option.none

/-- The feature dictionary produced by `extract_features`
(src/matching.py): four core keys, two optional keys. -/
structure Features where
  d_m : ℝ
  dv_ms : ℝ
  dtheta_deg : ℝ
  dt_s : ℝ
  range_error_m : Option ℝ := Option.none
  bearing_error_deg : Option ℝ := Option.none

/-- Embeds `extract_features` (src/matching.py). `np.hypot dx dy` is
`sqrt (dx^2 + dy^2)`; each optional feature is present exactly when both
of its operands are present (the `float()` conversions in the guarded
blocks cannot fail on numeric columns). -/
noncomputable def extract_features (ais_row : AisRow) (arpa_row : ArpaRow) : Features :=
  let dx := arpa_row.x - ais_row.x
  let dy := arpa_row.y - ais_row.y
  { d_m := Real.sqrt (dx ^ 2 + dy ^ 2)
    dv_ms := |arpa_row.speed_ms - ais_row.sog_ms|
    dtheta_deg := angle_diff_deg arpa_row.heading_deg ais_row.cog_deg
    dt_s := |arpa_row.timestamp_s - ais_row.timestamp_s|
    range_error_m :=
      match arpa_row.r_meas_m, ais_row.r_site_m with
      | some r1, some r2 => some |r1 - r2|
      | _, _ => Option.none
    bearing_error_deg :=
      match arpa_row.brg_meas_deg, ais_row.brg_site_deg with
      | some b1, some b2 => some (angle_diff_deg b1 b2)
      | _, _ => Option.none }

/-- The score dictionary returned by `feature_score` (src/matching.py). -/
structure SubScores where
  s_pos : ℝ
  s_spd : ℝ
  s_brg : ℝ
  s_time : ℝ
  s_range : ℝ
  s_brg_geo : ℝ
  s_total : ℝ

/-- Embeds `feature_score` (src/matching.py). The optional channels use
the source condition `p.range_sigma_m and p.range_sigma_m > 0.0`
(Python truthiness: nonzero and positive) and otherwise stay at `0.0`;
the aggregate is the weighted sum of the six sub-scores. -/
noncomputable def feature_score (features : Features) (p : ScoringParams) : SubScores :=
  let s_pos := Real.exp (-((features.d_m / p.pos_sigma_m) ^ 2))
  let s_spd := Real.exp (-((features.dv_ms / p.spd_sigma_ms) ^ 2))
  let s_brg := Real.exp (-((features.dtheta_deg / p.hdg_sigma_deg) ^ 2))
  let s_time := Real.exp (-((features.dt_s / p.time_sigma_s) ^ 2))
  let s_range :=
    match features.range_error_m with
    | some re =>
        if p.range_sigma_m ≠ 0 ∧ 0 < p.range_sigma_m then
          Real.exp (-((re / p.range_sigma_m) ^ 2))
        else 0
    | Option.none => 0
  let s_brg_geo :=
    match features.bearing_error_deg with
    | some be =>
        if p.brg_geo_sigma_deg ≠ 0 ∧ 0 < p.brg_geo_sigma_deg then
          Real.exp (-((be / p.brg_geo_sigma_deg) ^ 2))
        else 0
    | Option.none => 0
  { s_pos := s_pos
    s_spd := s_spd
    s_brg := s_brg
    s_time := s_time
    s_range := s_range
    s_brg_geo := s_brg_geo
    s_total := p.w_pos * s_pos + p.w_spd * s_spd + p.w_brg * s_brg + p.w_time * s_time
      + p.w_range * s_range + p.w_brg_geo * s_brg_geo }

/-- The candidate dictionary appended by `build_candidates`
(src/matching.py): the two ids, `s_total`, and the spread feature
dictionary. The score type is a parameter so that the assigner, which
never recomputes scores, can be run over ℚ as well as ℝ. -/
structure Candidate (α : Type) where
  arpa_id : String
  ais_id : String
  s_total : α
  d_m : α
  dv_ms : α
  dtheta_deg : α
  dt_s : α
  range_error_m : Option α := Option.none
  bearing_error_deg : Option α := Option.none
deriving DecidableEq

/-- The candidate record `build_candidates` emits for an (ARPA, AIS) row
pair that passed the gates. -/
noncomputable def candidate_of (p : ScoringParams) (a_row : ArpaRow) (i_row : AisRow) :
    Candidate ℝ :=
  let feats := extract_features i_row a_row
  { arpa_id := a_row.arpa_id
    ais_id := i_row.ais_id
    s_total := (feature_score feats p).s_total
    d_m := feats.d_m
    dv_ms := feats.dv_ms
    dtheta_deg := feats.dtheta_deg
    dt_s := feats.dt_s
    range_error_m := feats.range_error_m
    bearing_error_deg := feats.bearing_error_deg }

/-- Embeds `build_candidates` (src/matching.py): for every ARPA row and
every AIS row, compute the features and emit a candidate exactly when
`d_m <= gating_distance_m` and `dt_s <= time_gate_s`. The pre-indexing
dictionaries of the source are dead locals and are omitted. -/
noncomputable def build_candidates (ais_df : List AisRow) (arpa_df : List ArpaRow)
    (gating_distance_m time_gate_s : ℝ) (p : ScoringParams) : List (Candidate ℝ) :=
  arpa_df.flatMap fun a_row =>
    ais_df.filterMap fun i_row =>
      if (extract_features i_row a_row).d_m ≤ gating_distance_m ∧
          (extract_features i_row a_row).dt_s ≤ time_gate_s then
        some (candidate_of p a_row i_row)
      else Option.none

section Assigner

variable {α : Type} [LinearOrderedField α]

/-- All ways to pick `k` pairwise distinct elements, in order, from the
pool `avail`. Auxiliary for the brute-force model of
`scipy.optimize.linear_sum_assignment`. -/
def injectionsFrom : ℕ → List ℕ → List (List ℕ)
  | 0, _ => [[]]
  | k + 1, avail =>
      avail.flatMap fun j =>
        (injectionsFrom k (avail.erase j)).map fun rest => j :: rest

/-- First element of the list attaining the minimal value of `f`
(ties broken in favour of earlier elements). -/
def argminList {β : Type} (f : β → α) : List β → Option β
  | [] => Option.none
  | b :: bs =>
      match argminList f bs with
      | Option.none => some b
      | some c => if f b ≤ f c then some b else some c

/-- Total cost of a list of row/column index pairs under a cost matrix. -/
def sumCost (cost : ℕ → ℕ → α) (pairs : List (ℕ × ℕ)) : α :=
  (pairs.map fun ij => cost ij.1 ij.2).sum

/-- Model of `scipy.optimize.linear_sum_assignment` on an `n × m` cost
matrix, evaluated by brute force: among all complete one-to-one
assignments of the smaller side to the larger side, return one of
minimal total cost (the library leaves tie-breaking unspecified; this
model takes the first minimum). -/
def linear_sum_assignment (cost : ℕ → ℕ → α) (n m : ℕ) : List (ℕ × ℕ) :=
  if n ≤ m then
    match argminList (fun picks => sumCost cost ((List.range n).zip picks))
        (injectionsFrom n (List.range m)) with
    | some picks => (List.range n).zip picks
    | Option.none => []
  else
    match argminList (fun picks => sumCost cost (picks.zip (List.range m)))
        (injectionsFrom m (List.range n)) with
    | some picks => picks.zip (List.range m)
    | Option.none => []

/-- An accepted match as appended by `assign_one_to_one`
(src/matching.py): the two ids and the accepted score. -/
structure Match (α : Type) where
  arpa_id : String
  ais_id : String
  score : α
deriving DecidableEq

/-- Python dictionary built by `{aid: i for i, aid in enumerate(ids)}`:
on duplicate ids the last index wins. `Option.none` models a `KeyError`
on lookup. -/
def dictLastIdx (ids : List String) (x : String) : Option ℕ :=
  ((ids.enum.filter fun p => p.2 = x).map fun p => p.1).getLast?

/-- Lookup in an association list built by repeated dictionary
assignment: the last binding of the key wins. -/
def lookupLast (entries : List ((ℕ × ℕ) × α)) (k : ℕ × ℕ) : Option α :=
  ((entries.filter fun e => e.1 = k).map fun e => e.2).getLast?

/-- The indexing loop of `assign_one_to_one` (src/matching.py): for each
candidate, look up `arpa_idx_map[c.arpa_id]` and `ais_idx_map[c.ais_id]`
and record `score_map[(i, j)] = c.s_total`. A missing id raises
`KeyError`, modelled by `Option.none`. -/
def candidateEntries (arpa_ids ais_ids : List String) :
    List (Candidate α) → Option (List ((ℕ × ℕ) × α))
  | [] => some []
  | c :: rest =>
      match dictLastIdx arpa_ids c.arpa_id, dictLastIdx ais_ids c.ais_id,
          candidateEntries arpa_ids ais_ids rest with
      | some i, some j, some es => some (((i, j), c.s_total) :: es)
      | _, _, _ => Option.none

/-- The cost matrix of `assign_one_to_one` (src/matching.py): initialised
everywhere to the large default `1.5`, then `cost[i, j] = 1 - s_total`
for every candidate entry. -/
def entryCost (entries : List ((ℕ × ℕ) × α)) : ℕ → ℕ → α := fun i j =>
  match lookupLast entries (i, j) with
  | some s => 1 - s
  | Option.none => 3 / 2

/-- The acceptance loop of `assign_one_to_one` (src/matching.py): for each
assigned `(i, j)`, accept when `score_map` holds a score `s` for it and
`s >= accept_threshold`. -/
def acceptedMatches (entries : List ((ℕ × ℕ) × α)) (arpa_ids ais_ids : List String)
    (pairs : List (ℕ × ℕ)) (accept_threshold : α) : List (Match α) :=
  pairs.filterMap fun ij =>
    match lookupLast entries ij with
    | some s =>
        if accept_threshold ≤ s then
          some { arpa_id := arpa_ids.getD ij.1 ""
                 ais_id := ais_ids.getD ij.2 ""
                 score := s }
        else Option.none
    | Option.none => Option.none

/-- Embeds `assign_one_to_one` (src/matching.py). Empty candidate lists
short-circuit to no matches with every ARPA id unmatched; otherwise index
the candidates (a `KeyError`, i.e. `Option.none`, propagates), run the
assignment on the cost matrix, accept assigned pairs scoring at or above
the threshold, and report the ARPA ids of the accepted matches removed
from the input list. -/
def assign_one_to_one (candidates : List (Candidate α)) (arpa_ids ais_ids : List String)
    (accept_threshold : α) : Option (List (Match α) × List String) :=
  if candidates = [] then some ([], arpa_ids)
  else
    match candidateEntries arpa_ids ais_ids candidates with
    | Option.none => Option.none
    | some entries =>
        let pairs := linear_sum_assignment (entryCost entries) arpa_ids.length ais_ids.length
        let accepted := acceptedMatches entries arpa_ids ais_ids pairs accept_threshold
        let unmatched_arpa :=
          arpa_ids.filter fun aid => decide (¬ aid ∈ accepted.map Match.arpa_id)
        some (accepted, unmatched_arpa)

end Assigner

/-- The `ScoringParams` constructed by `MatchingController.__init__`
(app/controllers/matching_controller.py) with the configuration defaults
of app/core/config.py: `settings` supplies the four sigmas, while
`RANGE_SIGMA_M`, `BEARING_GEO_SIGMA_DEG`, `W_RANGE` and `W_BRG_GEO` are
absent from `Settings`, so the `getattr` defaults 1500, 15, 0.15 and 0.15
apply; the four base weights keep their dataclass defaults. -/
noncomputable def matching_scoring_params : ScoringParams :=
  { pos_sigma_m := 500
    spd_sigma_ms := 3
    hdg_sigma_deg := 40
    time_sigma_s := 60
    range_sigma_m := 1500
    brg_geo_sigma_deg := 15
    w_range := 0.15
    w_brg_geo := 0.15 }

/-- The unmatched-AIS computation of `MatchingController.process_matching`
(app/controllers/matching_controller.py): the set difference
`all_ais_ids - matched_ais_ids`, embedded as a filter of the input id
list (the Python value is a set; only its membership matters). -/
def process_unmatched_ais {α : Type} (ais_ids : List String) (ms : List (Match α)) :
    List String :=
  ais_ids.filter fun iid => decide (¬ iid ∈ ms.map Match.ais_id)

/-- The key/value view of a candidate dictionary as `build_candidates`
(src/matching.py) builds it: exactly the keys `arpa_id`, `ais_id` (not
numeric, so not exposed here), `s_total`, the four core features, and the
two optional features when present. In particular no sub-score key
(`s_pos`, `s_spd`, `s_hdg`, `s_time`, `s_range`, `s_brg`) is ever
present. -/
def Candidate.toDict {α : Type} (c : Candidate α) : String → Option α := fun key =>
  if key = "s_total" then some c.s_total
  else if key = "d_m" then some c.d_m
  else if key = "dv_ms" then some c.dv_ms
  else if key = "dtheta_deg" then some c.dtheta_deg
  else if key = "dt_s" then some c.dt_s
  else if key = "range_error_m" then c.range_error_m
  else if key = "bearing_error_deg" then c.bearing_error_deg
  else Option.none

/-- The candidate lookup dictionary of `process_matching`
(app/controllers/matching_controller.py), keyed by `(arpa_id, ais_id)`;
later candidates with the same key overwrite earlier ones. -/
def candidate_lookup {α : Type} (candidates : List (Candidate α)) (key : String × String) :
    Option (Candidate α) :=
  (candidates.filter fun c => c.arpa_id = key.1 ∧ c.ais_id = key.2).getLast?

/-- The per-pair `features` sub-dictionary assembled by `process_matching`
(app/controllers/matching_controller.py, lines 530-541). -/
structure PairFeatures where
  d_m : ℝ
  dv_ms : ℝ
  dtheta_deg : ℝ
  dt_s : ℝ
  s_pos : ℝ
  s_spd : ℝ
  s_hdg : ℝ
  s_time : ℝ
  s_range : ℝ
  s_brg : ℝ

/-- A `matched_pairs` record assembled by `process_matching`
(app/controllers/matching_controller.py, lines 520-542); the raw
observation payloads are opaque to the properties below and omitted. -/
structure MatchedPairRecord where
  arpa_id : String
  ais_id : String
  score : ℝ
  distance_m : ℝ
  speed_diff_ms : ℝ
  heading_diff_deg : ℝ
  time_diff_s : ℝ
  features : PairFeatures

/-- Embeds the matched-pair assembly loop of `process_matching`
(app/controllers/matching_controller.py): look the candidate up by
`(arpa_id, ais_id)` (missing key gives the empty dictionary), then read
each field with `candidate.get(key, default)`. -/
def assemble_matched_pair (candidates : List (Candidate ℝ)) (m : Match ℝ) :
    MatchedPairRecord :=
  let cand := candidate_lookup candidates (m.arpa_id, m.ais_id)
  let get : String → ℝ → ℝ := fun key default =>
    match cand with
    | some c => (c.toDict key).getD default
    | Option.none => default
  { arpa_id := m.arpa_id
    ais_id := m.ais_id
    score := m.score
    distance_m := get "d_m" 0
    speed_diff_ms := get "dv_ms" 0
    heading_diff_deg := get "dtheta_deg" 0
    time_diff_s := get "dt_s" 0
    features :=
      { d_m := get "d_m" 0
        dv_ms := get "dv_ms" 0
        dtheta_deg := get "dtheta_deg" 0
        dt_s := get "dt_s" 0
        s_pos := get "s_pos" 0
        s_spd := get "s_spd" 0
        s_hdg := get "s_hdg" 0
        s_time := get "s_time" 0
        s_range := get "s_range" 1
        s_brg := get "s_brg" 1 } }

/-- The inputs `parse_time_s` (src/geo.py) can receive, carried together
with their denotation: a valid ISO-8601 string or an already-parsed
timestamp object denotes an instant (as integer nanoseconds since the
epoch, the resolution of `pandas.Timestamp.value`), a bare number is
carried verbatim, and `null` models Python `None`. -/
inductive TimeValue
  | null
  | isoString (ns : ℤ)
  | invalidString
  | number (n : ℤ)
  | timestampObj (ns : ℤ)

/-- Model of the pandas API call `pd.to_datetime` as used by
`parse_time_s` (src/geo.py), returning the `.value` of the resulting
timestamp in nanoseconds, or failure. Modelled from the documented pandas
semantics: ISO-8601 strings (a trailing `Z` meaning `+00:00`) and
timestamp objects parse to their instant; a bare number is interpreted
with the default `unit='ns'`, i.e. as nanoseconds since the epoch;
unparsable input raises. -/
def pd_to_datetime : TimeValue → Option ℤ
  | TimeValue.null => Option.none
  | TimeValue.isoString ns => some ns
  | TimeValue.invalidString => Option.none
  | TimeValue.number n => some n
  | TimeValue.timestampObj ns => some ns

/-- Embeds `parse_time_s` (src/geo.py): `None` yields the sentinel 0.0,
otherwise `float(pd.to_datetime(ts).value) / 1e9`, with any parsing
exception also yielding 0.0. -/
def parse_time_s (ts : TimeValue) : ℚ :=
  match ts with
  | TimeValue.null => 0
  | _ =>
      match pd_to_datetime ts with
      | some ns => (ns : ℚ) / 1000000000
      | Option.none => 0

/-- Embeds `MatchingController._point_in_polygon`
(app/controllers/matching_controller.py): a missing/empty polygon or an
empty outer ring accepts every point, otherwise ray casting over the
outer ring. Coordinates are embedded as ℚ so the test is executable; the
division is exact where the source's float division is approximate, which
the claims below do not depend on. -/
def point_in_polygon (lon lat : ℚ) (polygon : List (List (ℚ × ℚ))) : Bool :=
  match polygon with
  | [] => true
  | coords :: _ =>
      if coords = [] then true
      else
        let n := coords.length
        (List.range n).foldl
          (fun inside i =>
            let pi := coords.getD i (0, 0)
            let pj := coords.getD (if i = 0 then n - 1 else i - 1) (0, 0)
            if ((pi.2 > lat) ≠ (pj.2 > lat)) ∧
                (lon < (pj.1 - pi.1) * (lat - pi.2) / (pj.2 - pi.2) + pi.1) then
              !inside
            else inside)
          false

section Cache

variable {Item : Type}

/-- The state of `DataCache` (app/services/cache.py) that `add` touches:
the bounded in-memory fallback deque, the total-message counter, the
backend-availability flag, and the configured bound. -/
structure CacheState (Item : Type) where
  fallback : List Item
  total_messages : ℕ
  redis_available : Bool
  max_size : ℕ

/-- Append to a `collections.deque` with `maxlen`: the new element goes to
the right and the oldest elements are discarded from the left so that at
most `maxlen` remain. -/
def dequeAppend (maxlen : ℕ) (l : List Item) (x : Item) : List Item :=
  let l' := l ++ [x]
  l'.drop (l'.length - maxlen)

/-- The observable outcome of the backend interaction during one
`DataCache.add` call: `_check_redis()` succeeded and the Redis block ran
to completion; `_check_redis()` succeeded but an operation in the Redis
block raised; or `_check_redis()` reported the backend unavailable. -/
inductive RedisOutcome
  | available_ok
  | available_fail
  | unavailable

/-- Embeds `DataCache.add` (app/services/cache.py) as a state transition
under a given backend outcome. On `available_ok` the item is stored in
Redis (not modelled beyond the counter), on `available_fail` the
exception handler clears the availability flag and control falls through
to the in-memory branch, and on `unavailable` the in-memory branch runs
directly. Every path increments `total_messages` exactly once. -/
def DataCache.add (s : CacheState Item) (x : Item) (r : RedisOutcome) : CacheState Item :=
  match r with
  | RedisOutcome.available_ok =>
      { s with total_messages := s.total_messages + 1 }
  | RedisOutcome.available_fail =>
      { s with
        redis_available := false
        fallback := dequeAppend s.max_size s.fallback x
        total_messages := s.total_messages + 1 }
  | RedisOutcome.unavailable =>
      { s with
        fallback := dequeAppend s.max_size s.fallback x
        total_messages := s.total_messages + 1 }

end Cache

/-- Claim C7, amended: `parse_time_s` maps a valid ISO-8601 string (a
trailing `Z` meaning `+00:00`) or an already-parsed timestamp object
denoting the instant `ns` nanoseconds after the epoch to `ns / 1e9`
epoch seconds; it maps `None` and invalid strings to the sentinel 0.0
instead of raising; but it reads a bare number `n` as `n` nanoseconds
since the epoch (the pandas default unit), so a number of epoch seconds
comes back divided by 1e9 rather than unchanged. -/
theorem parse_time_s_spec :
    (∀ ns : ℤ, parse_time_s (TimeValue.isoString ns) = (ns : ℚ) / 1000000000)
    ∧ (∀ ns : ℤ, parse_time_s (TimeValue.timestampObj ns) = (ns : ℚ) / 1000000000)
    ∧ (∀ n : ℤ, parse_time_s (TimeValue.number n) = (n : ℚ) / 1000000000)
    ∧ parse_time_s TimeValue.null = 0
    ∧ parse_time_s TimeValue.invalidString = 0 :=
  ⟨fun _ => rfl, fun _ => rfl, fun _ => rfl, rfl, rfl⟩

/-- Claim C7, counterexample: feeding the epoch-second number 1700000000
to `parse_time_s` yields 1.7, not 1700000000 — `pandas.to_datetime`
interprets a bare number as nanoseconds since the epoch. -/
theorem parse_time_s_number_cex :
    parse_time_s (TimeValue.number 1700000000) = 17 / 10 ∧
      parse_time_s (TimeValue.number 1700000000) ≠ 1700000000 := by
  have h : parse_time_s (TimeValue.number 1700000000) =
      ((1700000000 : ℤ) : ℚ) / 1000000000 := rfl
  rw [h]
  norm_num

/-- Claim C9: the sanitize step's ray-casting point-in-polygon test
accepts every point whenever the polygon list is empty or its outer ring
is empty, so an empty polygon disables spatial filtering instead of
rejecting all records. -/
theorem point_in_polygon_empty_accepts (lon lat : ℚ)
    (polygon : List (List (ℚ × ℚ)))
    (h : polygon = [] ∨ ∃ rest, polygon = [] :: rest) :
    point_in_polygon lon lat polygon = true := by
  rcases h with h | ⟨rest, h⟩ <;> subst h <;> rfl

/-- Witness for claim C9 at the concrete point (3, 4) and the polygon
whose outer ring is empty. -/
theorem point_in_polygon_empty_accepts_witness :
    (([[]] : List (List (ℚ × ℚ))) = [] ∨
      ∃ rest, ([[]] : List (List (ℚ × ℚ))) = [] :: rest)
    ∧ point_in_polygon 3 4 [[]] = true :=
  ⟨Or.inr ⟨[], rfl⟩, point_in_polygon_empty_accepts 3 4 [[]] (Or.inr ⟨[], rfl⟩)⟩

/-- Claim C10: `DataCache.add` is a total state transition (every call
completes) that increments `total_messages` by exactly one on every
backend outcome; when the backend fails during the call the added item is
stored in the in-memory fallback within that same call (for any positive
bound); and the fallback never holds more than `max_size` items. -/
theorem dataCache_add_spec {Item : Type} (s : CacheState Item) (x : Item)
    (r : RedisOutcome) :
    ((DataCache.add s x r).total_messages = s.total_messages + 1)
    ∧ (r = RedisOutcome.available_fail → 1 ≤ s.max_size →
        x ∈ (DataCache.add s x r).fallback)
    ∧ (s.fallback.length ≤ s.max_size →
        (DataCache.add s x r).fallback.length ≤ s.max_size) := by
  refine ⟨?_, ?_, ?_⟩
  · cases r <;> rfl
  · intro hr hmax
    subst hr
    show x ∈ dequeAppend s.max_size s.fallback x
    simp only [dequeAppend]
    rw [List.drop_append_of_le_length (by simp; omega)]
    simp
  · intro hlen
    cases r
    · exact hlen
    all_goals
      show (dequeAppend s.max_size s.fallback x).length ≤ s.max_size
      simp only [dequeAppend, List.length_drop, List.length_append,
        List.length_singleton]
      omega

/-- Witness for claim C10: adding the value 5 to an empty cache bounded
at 1000 while the backend fails stores 5 in the fallback and counts one
message. -/
theorem dataCache_add_spec_witness :
    ((DataCache.add (⟨[], 0, true, 1000⟩ : CacheState ℕ) 5
        RedisOutcome.available_fail).total_messages = 0 + 1)
    ∧ (5 : ℕ) ∈ (DataCache.add (⟨[], 0, true, 1000⟩ : CacheState ℕ) 5
        RedisOutcome.available_fail).fallback
    ∧ (DataCache.add (⟨[], 0, true, 1000⟩ : CacheState ℕ) 5
        RedisOutcome.available_fail).fallback.length ≤ 1000 :=
  ⟨(dataCache_add_spec _ 5 _).1,
   (dataCache_add_spec _ 5 _).2.1 rfl (by norm_num),
   (dataCache_add_spec _ 5 _).2.2 (Nat.zero_le _)⟩

/-- Claim C8 (code bug): every matched-pair record assembled by
`process_matching` reports the constant placeholder sub-scores 0 (for
`s_pos`, `s_spd`, `s_hdg`, `s_time`) and 1.0 (for `s_range`, `s_brg`),
because the candidate dictionaries built by `build_candidates` carry no
sub-score keys, so every `candidate.get(key, default)` returns its
default — while the Scorer's actual positional sub-score is strictly
positive on every input, so the emitted records cannot be carrying the
candidates' true sub-scores. -/
theorem matched_pair_sub_scores_constant (candidates : List (Candidate ℝ))
    (m : Match ℝ) :
    ((assemble_matched_pair candidates m).features.s_pos = 0
      ∧ (assemble_matched_pair candidates m).features.s_spd = 0
      ∧ (assemble_matched_pair candidates m).features.s_hdg = 0
      ∧ (assemble_matched_pair candidates m).features.s_time = 0
      ∧ (assemble_matched_pair candidates m).features.s_range = 1
      ∧ (assemble_matched_pair candidates m).features.s_brg = 1)
    ∧ ∀ (f : Features) (p : ScoringParams), 0 < (feature_score f p).s_pos := by
  constructor
  · simp only [assemble_matched_pair]
    cases hc : candidate_lookup candidates (m.arpa_id, m.ais_id) with
    | none => exact ⟨rfl, rfl, rfl, rfl, rfl, rfl⟩
    | some c => exact ⟨rfl, rfl, rfl, rfl, rfl, rfl⟩
  · intro f p
    exact Real.exp_pos _

/-- The `ScoringParams()` value with every field at its dataclass
default. -/
noncomputable def defaultScoringParams : ScoringParams := {}

/-- A Gaussian kernel with the source's exponent convention lies in the
unit interval. -/
lemma gauss_kernel_mem_unit (x : ℝ) :
    0 ≤ Real.exp (-(x ^ 2)) ∧ Real.exp (-(x ^ 2)) ≤ 1 :=
  ⟨(Real.exp_pos _).le, Real.exp_le_one_iff.mpr (neg_nonpos.mpr (sq_nonneg x))⟩

/-- All six sub-scores of the Scorer lie in the unit interval. -/
lemma sub_scores_bounds (f : Features) (p : ScoringParams) :
    (0 ≤ (feature_score f p).s_pos ∧ (feature_score f p).s_pos ≤ 1)
    ∧ (0 ≤ (feature_score f p).s_spd ∧ (feature_score f p).s_spd ≤ 1)
    ∧ (0 ≤ (feature_score f p).s_brg ∧ (feature_score f p).s_brg ≤ 1)
    ∧ (0 ≤ (feature_score f p).s_time ∧ (feature_score f p).s_time ≤ 1)
    ∧ (0 ≤ (feature_score f p).s_range ∧ (feature_score f p).s_range ≤ 1)
    ∧ (0 ≤ (feature_score f p).s_brg_geo ∧ (feature_score f p).s_brg_geo ≤ 1) := by
  refine ⟨gauss_kernel_mem_unit _, gauss_kernel_mem_unit _, gauss_kernel_mem_unit _,
    gauss_kernel_mem_unit _, ?_, ?_⟩
  · have h1 : (feature_score f p).s_range = (match f.range_error_m with
      | some re =>
          if p.range_sigma_m ≠ 0 ∧ 0 < p.range_sigma_m then
            Real.exp (-((re / p.range_sigma_m) ^ 2))
          else 0
      | Option.none => (0 : ℝ)) := rfl
    rw [h1]
    split
    · split_ifs
      · exact gauss_kernel_mem_unit _
      · exact ⟨le_rfl, zero_le_one⟩
    · exact ⟨le_rfl, zero_le_one⟩
  · have h1 : (feature_score f p).s_brg_geo = (match f.bearing_error_deg with
      | some be =>
          if p.brg_geo_sigma_deg ≠ 0 ∧ 0 < p.brg_geo_sigma_deg then
            Real.exp (-((be / p.brg_geo_sigma_deg) ^ 2))
          else 0
      | Option.none => (0 : ℝ)) := rfl
    rw [h1]
    split
    · split_ifs
      · exact gauss_kernel_mem_unit _
      · exact ⟨le_rfl, zero_le_one⟩
    · exact ⟨le_rfl, zero_le_one⟩

/-- With nonnegative channel weights, the aggregate score is bounded
below by 0 and above by the sum of the weights. -/
lemma s_total_bounds (f : Features) (p : ScoringParams)
    (hw : 0 ≤ p.w_pos ∧ 0 ≤ p.w_spd ∧ 0 ≤ p.w_brg ∧ 0 ≤ p.w_time ∧
      0 ≤ p.w_range ∧ 0 ≤ p.w_brg_geo) :
    0 ≤ (feature_score f p).s_total ∧
      (feature_score f p).s_total ≤
        p.w_pos + p.w_spd + p.w_brg + p.w_time + p.w_range + p.w_brg_geo := by
  obtain ⟨⟨a0, a1⟩, ⟨b0, b1⟩, ⟨c0, c1⟩, ⟨d0, d1⟩, ⟨e0, e1⟩, ⟨g0, g1⟩⟩ :=
    sub_scores_bounds f p
  obtain ⟨w1, w2, w3, w4, w5, w6⟩ := hw
  have hst : (feature_score f p).s_total =
      p.w_pos * (feature_score f p).s_pos + p.w_spd * (feature_score f p).s_spd
        + p.w_brg * (feature_score f p).s_brg + p.w_time * (feature_score f p).s_time
        + p.w_range * (feature_score f p).s_range
        + p.w_brg_geo * (feature_score f p).s_brg_geo := rfl
  rw [hst]
  constructor
  · have := mul_nonneg w1 a0
    have := mul_nonneg w2 b0
    have := mul_nonneg w3 c0
    have := mul_nonneg w4 d0
    have := mul_nonneg w5 e0
    have := mul_nonneg w6 g0
    linarith
  · have := mul_le_of_le_one_right w1 a1
    have := mul_le_of_le_one_right w2 b1
    have := mul_le_of_le_one_right w3 c1
    have := mul_le_of_le_one_right w4 d1
    have := mul_le_of_le_one_right w5 e1
    have := mul_le_of_le_one_right w6 g1
    linarith

/-- Claim C3: each mandatory sub-score of the Scorer is the Gaussian
kernel exp(-(Δ/σ)²) of its feature and sigma, each optional sub-score is
that same kernel whenever its feature is present and its sigma positive,
the aggregate is the weighted sum of the six sub-scores, and for a
nonzero normalised offset the kernel differs from the half-exponent
convention exp(-(Δ/σ)²/2). -/
theorem feature_score_gaussian (f : Features) (p : ScoringParams) :
    ((feature_score f p).s_pos = Real.exp (-((f.d_m / p.pos_sigma_m) ^ 2))
      ∧ (feature_score f p).s_spd = Real.exp (-((f.dv_ms / p.spd_sigma_ms) ^ 2))
      ∧ (feature_score f p).s_brg = Real.exp (-((f.dtheta_deg / p.hdg_sigma_deg) ^ 2))
      ∧ (feature_score f p).s_time = Real.exp (-((f.dt_s / p.time_sigma_s) ^ 2)))
    ∧ (∀ re, f.range_error_m = some re → 0 < p.range_sigma_m →
        (feature_score f p).s_range = Real.exp (-((re / p.range_sigma_m) ^ 2)))
    ∧ (∀ be, f.bearing_error_deg = some be → 0 < p.brg_geo_sigma_deg →
        (feature_score f p).s_brg_geo = Real.exp (-((be / p.brg_geo_sigma_deg) ^ 2)))
    ∧ (feature_score f p).s_total =
        p.w_pos * (feature_score f p).s_pos + p.w_spd * (feature_score f p).s_spd
          + p.w_brg * (feature_score f p).s_brg + p.w_time * (feature_score f p).s_time
          + p.w_range * (feature_score f p).s_range
          + p.w_brg_geo * (feature_score f p).s_brg_geo
    ∧ (f.d_m / p.pos_sigma_m ≠ 0 →
        (feature_score f p).s_pos ≠ Real.exp (-((f.d_m / p.pos_sigma_m) ^ 2) / 2)) := by
  refine ⟨⟨rfl, rfl, rfl, rfl⟩, ?_, ?_, rfl, ?_⟩
  · intro re hre hσ
    have h1 : (feature_score f p).s_range = (match f.range_error_m with
      | some re =>
          if p.range_sigma_m ≠ 0 ∧ 0 < p.range_sigma_m then
            Real.exp (-((re / p.range_sigma_m) ^ 2))
          else 0
      | Option.none => (0 : ℝ)) := rfl
    rw [h1, hre]
    exact if_pos ⟨ne_of_gt hσ, hσ⟩
  · intro be hbe hσ
    have h1 : (feature_score f p).s_brg_geo = (match f.bearing_error_deg with
      | some be =>
          if p.brg_geo_sigma_deg ≠ 0 ∧ 0 < p.brg_geo_sigma_deg then
            Real.exp (-((be / p.brg_geo_sigma_deg) ^ 2))
          else 0
      | Option.none => (0 : ℝ)) := rfl
    rw [h1, hbe]
    exact if_pos ⟨ne_of_gt hσ, hσ⟩
  · intro hx
    have hx2 : 0 < (f.d_m / p.pos_sigma_m) ^ 2 :=
      lt_of_le_of_ne (sq_nonneg _) (Ne.symm (pow_ne_zero 2 hx))
    have hlt : -((f.d_m / p.pos_sigma_m) ^ 2) < -((f.d_m / p.pos_sigma_m) ^ 2) / 2 := by
      linarith
    exact ne_of_lt (Real.exp_lt_exp.mpr hlt)

/-- Unit feature vector (all differences 1, both optional features
present) used to witness the Scorer claims. -/
noncomputable def unitFeatures : Features :=
  { d_m := 1, dv_ms := 1, dtheta_deg := 1, dt_s := 1,
    range_error_m := some 1, bearing_error_deg := some 1 }

/-- Scoring parameters with every sigma 1 and the optional channels
enabled, used to witness the Scorer claims. -/
noncomputable def unitParams : ScoringParams :=
  { pos_sigma_m := 1, spd_sigma_ms := 1, hdg_sigma_deg := 1, time_sigma_s := 1,
    range_sigma_m := 1, brg_geo_sigma_deg := 1, w_range := 0.15, w_brg_geo := 0.15 }

/-- Witness for claim C3 at the unit feature vector and unit sigmas. -/
theorem feature_score_gaussian_witness :
    (unitFeatures.range_error_m = some 1 ∧ (0 : ℝ) < unitParams.range_sigma_m
      ∧ unitFeatures.bearing_error_deg = some 1 ∧ (0 : ℝ) < unitParams.brg_geo_sigma_deg
      ∧ unitFeatures.d_m / unitParams.pos_sigma_m ≠ 0)
    ∧ (feature_score unitFeatures unitParams).s_range
        = Real.exp (-(((1 : ℝ) / unitParams.range_sigma_m) ^ 2))
    ∧ (feature_score unitFeatures unitParams).s_brg_geo
        = Real.exp (-(((1 : ℝ) / unitParams.brg_geo_sigma_deg) ^ 2))
    ∧ (feature_score unitFeatures unitParams).s_pos
        ≠ Real.exp (-((unitFeatures.d_m / unitParams.pos_sigma_m) ^ 2) / 2) :=
  ⟨⟨rfl, by norm_num [unitParams], rfl, by norm_num [unitParams],
      by norm_num [unitFeatures, unitParams]⟩,
   (feature_score_gaussian unitFeatures unitParams).2.1 1 rfl
     (by norm_num [unitParams]),
   (feature_score_gaussian unitFeatures unitParams).2.2.1 1 rfl
     (by norm_num [unitParams]),
   (feature_score_gaussian unitFeatures unitParams).2.2.2.2
     (by norm_num [unitFeatures, unitParams])⟩

/-- The all-zero feature vector with both optional features present. -/
noncomputable def zeroFeatures : Features :=
  { d_m := 0, dv_ms := 0, dtheta_deg := 0, dt_s := 0,
    range_error_m := some 0, bearing_error_deg := some 0 }

/-- Claim C4, counterexample: under the orchestrator's configured scoring
parameters all optional channels are enabled yet the six weights sum to
1.3, not 1.0, and the aggregate score of the all-zero feature vector is
1.3, outside [0, 1]. -/
theorem scoring_weights_cex :
    (matching_scoring_params.w_pos + matching_scoring_params.w_spd
        + matching_scoring_params.w_brg + matching_scoring_params.w_time
        + matching_scoring_params.w_range + matching_scoring_params.w_brg_geo
        = 13 / 10
      ∧ (13 : ℝ) / 10 ≠ 1)
    ∧ (feature_score zeroFeatures matching_scoring_params).s_total = 13 / 10
    ∧ ¬ (feature_score zeroFeatures matching_scoring_params).s_total ≤ 1 := by
  have h2 : (feature_score zeroFeatures matching_scoring_params).s_total = 13 / 10 := by
    norm_num [feature_score, zeroFeatures, matching_scoring_params, Real.exp_zero]
  refine ⟨⟨by norm_num [matching_scoring_params], by norm_num⟩, h2, ?_⟩
  rw [h2]
  norm_num

/-- Claim C4, amended: with the `ScoringParams` dataclass defaults (the
optional channels disabled) the two optional geometry weights are 0, the
six weights sum to 1.0, and the aggregate score lies in [0, 1]; under
the orchestrator's configured parameters (optional channels enabled) the
weights sum to 1.3 and the aggregate score lies in [0, 1.3]. -/
theorem scoring_weights_amended :
    (defaultScoringParams.w_range = 0 ∧ defaultScoringParams.w_brg_geo = 0
      ∧ defaultScoringParams.w_pos + defaultScoringParams.w_spd
        + defaultScoringParams.w_brg + defaultScoringParams.w_time
        + defaultScoringParams.w_range + defaultScoringParams.w_brg_geo = 1)
    ∧ matching_scoring_params.w_pos + matching_scoring_params.w_spd
        + matching_scoring_params.w_brg + matching_scoring_params.w_time
        + matching_scoring_params.w_range + matching_scoring_params.w_brg_geo
        = 13 / 10
    ∧ (∀ f : Features, 0 ≤ (feature_score f defaultScoringParams).s_total
        ∧ (feature_score f defaultScoringParams).s_total ≤ 1)
    ∧ (∀ f : Features, 0 ≤ (feature_score f matching_scoring_params).s_total
        ∧ (feature_score f matching_scoring_params).s_total ≤ 13 / 10) := by
  have hsum1 : defaultScoringParams.w_pos + defaultScoringParams.w_spd
      + defaultScoringParams.w_brg + defaultScoringParams.w_time
      + defaultScoringParams.w_range + defaultScoringParams.w_brg_geo = 1 := by
    norm_num [defaultScoringParams]
  have hsum2 : matching_scoring_params.w_pos + matching_scoring_params.w_spd
      + matching_scoring_params.w_brg + matching_scoring_params.w_time
      + matching_scoring_params.w_range + matching_scoring_params.w_brg_geo
      = 13 / 10 := by
    norm_num [matching_scoring_params]
  refine ⟨⟨by norm_num [defaultScoringParams], by norm_num [defaultScoringParams],
    hsum1⟩, hsum2, ?_, ?_⟩
  · intro f
    have h := s_total_bounds f defaultScoringParams (by norm_num [defaultScoringParams])
    rw [hsum1] at h
    exact h
  · intro f
    have h := s_total_bounds f matching_scoring_params (by norm_num [matching_scoring_params])
    rw [hsum2] at h
    exact h

/-- Claim C2: for rows `a_row` of the ARPA input and `i_row` of the AIS
input, the candidate built from the pair is emitted by
`build_candidates` exactly when its features pass both gates; the
comparisons are non-strict, so a pair exactly at either gate is
emitted. -/
theorem build_candidates_gating (ais_df : List AisRow) (arpa_df : List ArpaRow)
    (gating_distance_m time_gate_s : ℝ) (p : ScoringParams)
    (a_row : ArpaRow) (i_row : AisRow)
    (ha : a_row ∈ arpa_df) (hi : i_row ∈ ais_df) :
    candidate_of p a_row i_row ∈
        build_candidates ais_df arpa_df gating_distance_m time_gate_s p
      ↔ ((extract_features i_row a_row).d_m ≤ gating_distance_m
          ∧ (extract_features i_row a_row).dt_s ≤ time_gate_s) := by
  constructor
  · intro h
    simp only [build_candidates, List.mem_flatMap, List.mem_filterMap] at h
    obtain ⟨a', ha', i', hi', heq⟩ := h
    by_cases hc : (extract_features i' a').d_m ≤ gating_distance_m
        ∧ (extract_features i' a').dt_s ≤ time_gate_s
    · rw [if_pos hc] at heq
      have hmk := Option.some.inj heq
      have hd : (extract_features i' a').d_m = (extract_features i_row a_row).d_m :=
        congrArg Candidate.d_m hmk
      have ht : (extract_features i' a').dt_s = (extract_features i_row a_row).dt_s :=
        congrArg Candidate.dt_s hmk
      exact ⟨hd ▸ hc.1, ht ▸ hc.2⟩
    · rw [if_neg hc] at heq
      exact absurd heq (by simp)
  · intro hgates
    simp only [build_candidates, List.mem_flatMap, List.mem_filterMap]
    exact ⟨a_row, ha, i_row, hi, by rw [if_pos hgates]⟩

/-- Concrete AIS row at the origin used to witness the gating claim. -/
noncomputable def wAisRow : AisRow :=
  { ais_id := "M1", x := 0, y := 0, sog_ms := 0, cog_deg := 0, timestamp_s := 0 }

/-- Concrete ARPA row 5 m from the origin used to witness the gating
claim. -/
noncomputable def wArpaRow : ArpaRow :=
  { arpa_id := "T1", x := 3, y := 4, speed_ms := 0, heading_deg := 0, timestamp_s := 0 }

/-- Witness for claim C2 on singleton inputs at the default gates. -/
theorem build_candidates_gating_witness :
    (wArpaRow ∈ [wArpaRow] ∧ wAisRow ∈ [wAisRow])
    ∧ (candidate_of defaultScoringParams wArpaRow wAisRow ∈
        build_candidates [wAisRow] [wArpaRow] 800 120 defaultScoringParams
      ↔ ((extract_features wAisRow wArpaRow).d_m ≤ 800
          ∧ (extract_features wAisRow wArpaRow).dt_s ≤ 120)) :=
  ⟨⟨List.mem_singleton.mpr rfl, List.mem_singleton.mpr rfl⟩,
   build_candidates_gating [wAisRow] [wArpaRow] 800 120 defaultScoringParams
     wArpaRow wAisRow (List.mem_singleton.mpr rfl) (List.mem_singleton.mpr rfl)⟩

section AssignerLemmas

variable {α : Type} [LinearOrderedField α]

/-- Every pick list produced by `injectionsFrom` has the requested
length, draws from the pool, and is duplicate-free when the pool is. -/
lemma injectionsFrom_mem {k : ℕ} :
    ∀ {avail : List ℕ} {l : List ℕ}, l ∈ injectionsFrom k avail →
      l.length = k ∧ (∀ x ∈ l, x ∈ avail) ∧ (avail.Nodup → l.Nodup) := by
  induction k with
  | zero =>
      intro avail l hl
      simp only [injectionsFrom, List.mem_singleton] at hl
      subst hl
      simp
  | succ k ih =>
      intro avail l hl
      simp only [injectionsFrom, List.mem_flatMap, List.mem_map] at hl
      obtain ⟨j, hj, rest, hrest, hl⟩ := hl
      subst hl
      obtain ⟨hlen, hsub, hnd⟩ := ih hrest
      refine ⟨by simp [hlen], ?_, ?_⟩
      · intro x hx
        rcases List.mem_cons.mp hx with h | h
        · subst h; exact hj
        · exact List.mem_of_mem_erase (hsub x h)
      · intro hnodup
        refine List.nodup_cons.mpr ⟨?_, hnd (hnodup.erase _)⟩
        intro hjin
        exact ((hnodup.mem_erase_iff).mp (hsub j hjin)).1 rfl

/-- `argminList` returns an element of its input list. -/
lemma argminList_mem {β : Type} (f : β → α) :
    ∀ {l : List β} {b : β}, argminList f l = some b → b ∈ l := by
  intro l
  induction l with
  | nil => intro b h; simp [argminList] at h
  | cons c cs ih =>
      intro b h
      cases hrec : argminList f cs with
      | none =>
          rw [argminList, hrec] at h
          obtain rfl := Option.some.inj h
          exact List.mem_cons_self _ _
      | some d =>
          rw [argminList, hrec] at h
          dsimp only at h
          split_ifs at h
          · obtain rfl := Option.some.inj h
            exact List.mem_cons_self _ _
          · obtain rfl := Option.some.inj h
            exact List.mem_cons_of_mem _ (ih hrec)

/-- Every pair the assignment model returns addresses a valid row and a
valid column. -/
lemma linear_sum_assignment_mem {cost : ℕ → ℕ → α} {n m : ℕ} :
    ∀ q ∈ linear_sum_assignment cost n m, q.1 < n ∧ q.2 < m := by
  intro q hq
  unfold linear_sum_assignment at hq
  split_ifs at hq with hnm
  · cases harg : argminList (fun picks => sumCost cost ((List.range n).zip picks))
        (injectionsFrom n (List.range m)) with
    | none => rw [harg] at hq; simp at hq
    | some picks =>
        rw [harg] at hq
        dsimp only at hq
        obtain ⟨h1, h2⟩ := List.of_mem_zip hq
        obtain ⟨-, hsub, -⟩ := injectionsFrom_mem (argminList_mem _ harg)
        exact ⟨List.mem_range.mp h1, List.mem_range.mp (hsub _ h2)⟩
  · cases harg : argminList (fun picks => sumCost cost (picks.zip (List.range m)))
        (injectionsFrom m (List.range n)) with
    | none => rw [harg] at hq; simp at hq
    | some picks =>
        rw [harg] at hq
        dsimp only at hq
        obtain ⟨h1, h2⟩ := List.of_mem_zip hq
        obtain ⟨-, hsub, -⟩ := injectionsFrom_mem (argminList_mem _ harg)
        exact ⟨List.mem_range.mp (hsub _ h1), List.mem_range.mp h2⟩

/-- The rows of the returned assignment are pairwise distinct. -/
lemma linear_sum_assignment_fst_nodup {cost : ℕ → ℕ → α} {n m : ℕ} :
    ((linear_sum_assignment cost n m).map Prod.fst).Nodup := by
  unfold linear_sum_assignment
  split_ifs with hnm
  · cases harg : argminList (fun picks => sumCost cost ((List.range n).zip picks))
        (injectionsFrom n (List.range m)) with
    | none => simp
    | some picks =>
        dsimp only
        obtain ⟨hlen, -, -⟩ := injectionsFrom_mem (argminList_mem _ harg)
        rw [List.map_fst_zip _ _ (by simp [hlen])]
        exact List.nodup_range n
  · cases harg : argminList (fun picks => sumCost cost (picks.zip (List.range m)))
        (injectionsFrom m (List.range n)) with
    | none => simp
    | some picks =>
        dsimp only
        obtain ⟨hlen, -, hnd⟩ := injectionsFrom_mem (argminList_mem _ harg)
        rw [List.map_fst_zip _ _ (by simp [hlen])]
        exact hnd (List.nodup_range n)

/-- The columns of the returned assignment are pairwise distinct. -/
lemma linear_sum_assignment_snd_nodup {cost : ℕ → ℕ → α} {n m : ℕ} :
    ((linear_sum_assignment cost n m).map Prod.snd).Nodup := by
  unfold linear_sum_assignment
  split_ifs with hnm
  · cases harg : argminList (fun picks => sumCost cost ((List.range n).zip picks))
        (injectionsFrom n (List.range m)) with
    | none => simp
    | some picks =>
        dsimp only
        obtain ⟨hlen, -, hnd⟩ := injectionsFrom_mem (argminList_mem _ harg)
        rw [List.map_snd_zip _ _ (by simp [hlen])]
        exact hnd (List.nodup_range m)
  · cases harg : argminList (fun picks => sumCost cost (picks.zip (List.range m)))
        (injectionsFrom m (List.range n)) with
    | none => simp
    | some picks =>
        dsimp only
        obtain ⟨hlen, -, -⟩ := injectionsFrom_mem (argminList_mem _ harg)
        rw [List.map_snd_zip _ _ (by simp [hlen])]
        exact List.nodup_range m

/-- In a duplicate-free list, `getD` at distinct valid indices yields
distinct elements. -/
lemma getD_inj {l : List String} (hnd : l.Nodup) {i j : ℕ}
    (hi : i < l.length) (hj : j < l.length)
    (h : l.getD i "" = l.getD j "") : i = j := by
  rw [List.getD_eq_getElem l "" hi, List.getD_eq_getElem l "" hj] at h
  exact (List.Nodup.getElem_inj_iff hnd).mp h

/-- Unpacks the acceptance function of `acceptedMatches` at one assigned
pair: an accepted match carries the ids at the pair's indices and a score
at or above the threshold. -/
lemma acceptedMatches_fn_eq_some {entries : List ((ℕ × ℕ) × α)}
    {arpa_ids ais_ids : List String} {thr : α} {ij : ℕ × ℕ} {mch : Match α}
    (hg : (match lookupLast entries ij with
      | some s =>
          if thr ≤ s then
            some ({ arpa_id := arpa_ids.getD ij.1 ""
                    ais_id := ais_ids.getD ij.2 ""
                    score := s } : Match α)
          else Option.none
      | Option.none => Option.none) = some mch) :
    mch.arpa_id = arpa_ids.getD ij.1 "" ∧ mch.ais_id = ais_ids.getD ij.2 ""
      ∧ thr ≤ mch.score := by
  cases hl : lookupLast entries ij with
  | none => rw [hl] at hg; exact absurd hg (by simp)
  | some s =>
      rw [hl] at hg
      dsimp only at hg
      split_ifs at hg with hthr
      obtain rfl := Option.some.inj hg
      exact ⟨rfl, rfl, hthr⟩

/-- Every accepted match comes from an assigned pair, carries the ids at
that pair's indices, and scores at or above the threshold. -/
lemma acceptedMatches_mem {entries : List ((ℕ × ℕ) × α)}
    {arpa_ids ais_ids : List String} {pairs : List (ℕ × ℕ)} {thr : α} {mch : Match α}
    (h : mch ∈ acceptedMatches entries arpa_ids ais_ids pairs thr) :
    ∃ ij ∈ pairs, mch.arpa_id = arpa_ids.getD ij.1 "" ∧
      mch.ais_id = ais_ids.getD ij.2 "" ∧ thr ≤ mch.score := by
  simp only [acceptedMatches, List.mem_filterMap] at h
  obtain ⟨ij, hij, hsome⟩ := h
  exact ⟨ij, hij, acceptedMatches_fn_eq_some hsome⟩

/-- Mapping a key over a `filterMap` yields a duplicate-free list when
the key of each output is determined by its input and inputs have
pairwise distinct keys. -/
lemma filterMap_map_nodup {β γ δ : Type} {g : β → Option γ} {key : γ → δ}
    {keyOf : β → δ} (hkey : ∀ b c, g b = some c → key c = keyOf b) :
    ∀ {l : List β}, l.Pairwise (fun b b' => keyOf b ≠ keyOf b') →
      ((l.filterMap g).map key).Nodup := by
  intro l
  induction l with
  | nil => intro _; simp
  | cons b rest ih =>
      intro hpw
      obtain ⟨hb, hrest⟩ := List.pairwise_cons.mp hpw
      rw [List.filterMap_cons]
      cases hg : g b with
      | none => exact ih hrest
      | some c =>
          rw [List.map_cons]
          refine List.nodup_cons.mpr ⟨?_, ih hrest⟩
          intro hmem
          simp only [List.mem_map, List.mem_filterMap] at hmem
          obtain ⟨c', ⟨b', hb', hg'⟩, hkeq⟩ := hmem
          exact hb b' hb' (by rw [← hkey b c hg, ← hkey b' c' hg', hkeq])

/-- With distinct ARPA ids and in-range row indices, distinct assigned
rows give accepted matches with pairwise distinct ARPA ids. -/
lemma acceptedMatches_arpa_nodup {entries : List ((ℕ × ℕ) × α)}
    {arpa_ids ais_ids : List String} {pairs : List (ℕ × ℕ)} {thr : α}
    (hfst : (pairs.map Prod.fst).Nodup)
    (hbound : ∀ q ∈ pairs, q.1 < arpa_ids.length)
    (hnd : arpa_ids.Nodup) :
    ((acceptedMatches entries arpa_ids ais_ids pairs thr).map Match.arpa_id).Nodup := by
  have hpw : pairs.Pairwise (fun q q' => q.1 ≠ q'.1) := List.pairwise_map.mp hfst
  have hpw2 : pairs.Pairwise
      (fun q q' => arpa_ids.getD q.1 "" ≠ arpa_ids.getD q'.1 "") :=
    hpw.imp_of_mem fun ha hb hne heq =>
      hne (getD_inj hnd (hbound _ ha) (hbound _ hb) heq)
  exact filterMap_map_nodup
    (fun ij mch hg => (acceptedMatches_fn_eq_some hg).1) hpw2

/-- With distinct AIS ids and in-range column indices, distinct assigned
columns give accepted matches with pairwise distinct AIS ids. -/
lemma acceptedMatches_ais_nodup {entries : List ((ℕ × ℕ) × α)}
    {arpa_ids ais_ids : List String} {pairs : List (ℕ × ℕ)} {thr : α}
    (hsnd : (pairs.map Prod.snd).Nodup)
    (hbound : ∀ q ∈ pairs, q.2 < ais_ids.length)
    (hnd : ais_ids.Nodup) :
    ((acceptedMatches entries arpa_ids ais_ids pairs thr).map Match.ais_id).Nodup := by
  have hpw : pairs.Pairwise (fun q q' => q.2 ≠ q'.2) := List.pairwise_map.mp hsnd
  have hpw2 : pairs.Pairwise
      (fun q q' => ais_ids.getD q.2 "" ≠ ais_ids.getD q'.2 "") :=
    hpw.imp_of_mem fun ha hb hne heq =>
      hne (getD_inj hnd (hbound _ ha) (hbound _ hb) heq)
  exact filterMap_map_nodup
    (fun ij mch hg => (acceptedMatches_fn_eq_some hg).2.1) hpw2

/-- With in-range assigned pairs, every accepted match's ids occur in the
respective input id lists. -/
lemma acceptedMatches_mem_ids {entries : List ((ℕ × ℕ) × α)}
    {arpa_ids ais_ids : List String} {pairs : List (ℕ × ℕ)} {thr : α}
    (hb1 : ∀ q ∈ pairs, q.1 < arpa_ids.length)
    (hb2 : ∀ q ∈ pairs, q.2 < ais_ids.length) :
    ∀ mch ∈ acceptedMatches entries arpa_ids ais_ids pairs thr,
      mch.arpa_id ∈ arpa_ids ∧ mch.ais_id ∈ ais_ids := by
  intro mch h
  obtain ⟨ij, hij, h1, h2, -⟩ := acceptedMatches_mem h
  constructor
  · rw [h1, List.getD_eq_getElem _ _ (hb1 ij hij)]
    exact List.getElem_mem _
  · rw [h2, List.getD_eq_getElem _ _ (hb2 ij hij)]
    exact List.getElem_mem _

/-- Running the assigner on one candidate over singleton id lists accepts
the pair exactly as the non-strict threshold test dictates; with
`t ≤ s` the single pair is accepted and no ARPA id is left unmatched. -/
lemma assign_singleton (s t d1 d2 d3 d4 : α) (h : t ≤ s) :
    assign_one_to_one
        [{ arpa_id := "A", ais_id := "B", s_total := s,
           d_m := d1, dv_ms := d2, dtheta_deg := d3, dt_s := d4 }]
        ["A"] ["B"] t
      = some ([{ arpa_id := "A", ais_id := "B", score := s }], []) := by
  have hred : assign_one_to_one
      ([{ arpa_id := "A", ais_id := "B", s_total := s,
          d_m := d1, dv_ms := d2, dtheta_deg := d3, dt_s := d4 }] : List (Candidate α))
      ["A"] ["B"] t
      = some (acceptedMatches ([((0, 0), s)] : List ((ℕ × ℕ) × α)) ["A"] ["B"] [(0, 0)] t,
          ["A"].filter fun aid => decide (¬ aid ∈
            (acceptedMatches ([((0, 0), s)] : List ((ℕ × ℕ) × α)) ["A"] ["B"]
              [(0, 0)] t).map Match.arpa_id)) := rfl
  have hacc : acceptedMatches ([((0, 0), s)] : List ((ℕ × ℕ) × α)) ["A"] ["B"] [(0, 0)] t
      = if t ≤ s then [({ arpa_id := "A", ais_id := "B", score := s } : Match α)] else [] := by
    simp only [acceptedMatches, List.filterMap_cons, List.filterMap_nil]
    rw [show lookupLast ([((0, 0), s)] : List ((ℕ × ℕ) × α)) (0, 0) = some s from rfl]
    dsimp only
    split_ifs
    all_goals rfl
  rw [hred, hacc, if_pos h]
  rfl

/-- A dictionary built from an id list has no entry for an id that is
not in the list. -/
lemma dictLastIdx_eq_none {ids : List String} {x : String} (hx : x ∉ ids) :
    dictLastIdx ids x = Option.none := by
  unfold dictLastIdx
  have hfil : ids.enum.filter (fun p => decide (p.2 = x)) = [] := by
    rw [List.filter_eq_nil_iff]
    rintro ⟨i, v⟩ hp
    obtain ⟨hi, hv⟩ := List.mem_enum hp
    simp only [decide_eq_true_eq]
    intro heq
    exact hx (by rw [← heq, hv]; exact List.getElem_mem _)
  rw [hfil]
  rfl

omit [LinearOrderedField α] in
/-- The indexing loop fails (raises `KeyError`) as soon as one candidate
references an id with no index. -/
lemma candidateEntries_eq_none {arpa_ids ais_ids : List String} :
    ∀ {candidates : List (Candidate α)},
      (∃ c ∈ candidates, dictLastIdx arpa_ids c.arpa_id = Option.none
        ∨ dictLastIdx ais_ids c.ais_id = Option.none) →
      candidateEntries arpa_ids ais_ids candidates = Option.none := by
  intro candidates
  induction candidates with
  | nil =>
      rintro ⟨c, hc, -⟩
      exact absurd hc (List.not_mem_nil c)
  | cons c rest ih =>
      rintro ⟨c', hc', hor⟩
      simp only [candidateEntries]
      rcases List.mem_cons.mp hc' with rfl | hmem
      · rcases hor with h1 | h2
        · rw [h1]
        · cases hA : dictLastIdx arpa_ids c'.arpa_id with
          | none => rfl
          | some i => rw [h2]
      · cases hA : dictLastIdx arpa_ids c.arpa_id with
        | none => rfl
        | some i =>
            cases hB : dictLastIdx ais_ids c.ais_id with
            | none => rfl
            | some j => rw [ih ⟨c', hmem, hor⟩]

end AssignerLemmas

/-- A concrete candidate pairing ARPA id A with AIS id B at score 1,
used to witness the assigner claims. -/
def candAB : Candidate ℚ :=
  { arpa_id := "A", ais_id := "B", s_total := 1, d_m := 0, dv_ms := 0,
    dtheta_deg := 0, dt_s := 0 }

/-- Claim C1: for duplicate-free input id lists, whenever
`assign_one_to_one` returns a result its matched pairs form a partial
bijection — every ARPA id and every AIS id appears in at most one pair —
and every accepted score is at or above `accept_threshold`; moreover the
threshold test is non-strict: a singleton run whose candidate scores
exactly the threshold accepts the pair, for every threshold. -/
theorem assign_one_to_one_partial_bijection :
    (∀ (α : Type) [LinearOrderedField α] (candidates : List (Candidate α))
        (arpa_ids ais_ids : List String) (accept_threshold : α)
        (ms : List (Match α)) (unmatched : List String),
        arpa_ids.Nodup → ais_ids.Nodup →
        assign_one_to_one candidates arpa_ids ais_ids accept_threshold
          = some (ms, unmatched) →
        (ms.map Match.arpa_id).Nodup ∧ (ms.map Match.ais_id).Nodup ∧
          ∀ mch ∈ ms, accept_threshold ≤ mch.score)
    ∧ (∀ (α : Type) [LinearOrderedField α] (t d1 d2 d3 d4 : α),
        assign_one_to_one
            [{ arpa_id := "A", ais_id := "B", s_total := t,
               d_m := d1, dv_ms := d2, dtheta_deg := d3, dt_s := d4 }]
            ["A"] ["B"] t
          = some ([{ arpa_id := "A", ais_id := "B", score := t }], [])) := by
  constructor
  · intro α _ candidates arpa_ids ais_ids thr ms unmatched hnd1 hnd2 hassign
    rw [assign_one_to_one] at hassign
    split_ifs at hassign with hemp
    · simp only [Option.some.injEq, Prod.mk.injEq] at hassign
      obtain ⟨rfl, rfl⟩ := hassign
      simp
    · cases hce : candidateEntries arpa_ids ais_ids candidates with
      | none => rw [hce] at hassign; exact absurd hassign (by simp)
      | some entries =>
          rw [hce] at hassign
          dsimp only at hassign
          simp only [Option.some.injEq, Prod.mk.injEq] at hassign
          obtain ⟨rfl, rfl⟩ := hassign
          refine ⟨?_, ?_, ?_⟩
          · exact acceptedMatches_arpa_nodup linear_sum_assignment_fst_nodup
              (fun q hq => (linear_sum_assignment_mem q hq).1) hnd1
          · exact acceptedMatches_ais_nodup linear_sum_assignment_snd_nodup
              (fun q hq => (linear_sum_assignment_mem q hq).2) hnd2
          · intro mch hm
            obtain ⟨ij, hij, -, -, hthr⟩ := acceptedMatches_mem hm
            exact hthr
  · intro α _ t d1 d2 d3 d4
    exact assign_singleton t t d1 d2 d3 d4 le_rfl

/-- Witness for claim C1: a singleton run over distinct ids at score 1
with threshold 1 — exactly at the threshold — accepts the pair, and the
result satisfies the partial bijection properties. -/
theorem assign_one_to_one_partial_bijection_witness :
    (List.Nodup ["A"] ∧ List.Nodup ["B"]
      ∧ assign_one_to_one [candAB] ["A"] ["B"] (1 : ℚ)
          = some ([{ arpa_id := "A", ais_id := "B", score := (1 : ℚ) }], []))
    ∧ (([({ arpa_id := "A", ais_id := "B", score := (1 : ℚ) } : Match ℚ)].map
          Match.arpa_id).Nodup
      ∧ ([({ arpa_id := "A", ais_id := "B", score := (1 : ℚ) } : Match ℚ)].map
          Match.ais_id).Nodup
      ∧ ∀ mch ∈ [({ arpa_id := "A", ais_id := "B", score := (1 : ℚ) } : Match ℚ)],
          (1 : ℚ) ≤ mch.score) :=
  have hrun : assign_one_to_one [candAB] ["A"] ["B"] (1 : ℚ)
      = some ([{ arpa_id := "A", ais_id := "B", score := (1 : ℚ) }], []) :=
    assign_singleton 1 1 0 0 0 0 le_rfl
  ⟨⟨by simp, by simp, hrun⟩,
    assign_one_to_one_partial_bijection.1 ℚ [candAB] ["A"] ["B"] 1 _ _
      (by simp) (by simp) hrun⟩

/-- Claim C5: whenever the assigner returns, the matched ARPA ids
together with the reported unmatched ARPA ids are exactly the input ARPA
ids, with the two sets disjoint; and the matched AIS ids together with
the orchestrator's complement computation are exactly the input AIS ids,
again disjoint. -/
theorem assign_unmatched_complement (α : Type) [inst : LinearOrderedField α]
    (candidates : List (Candidate α)) (arpa_ids ais_ids : List String)
    (accept_threshold : α) (ms : List (Match α)) (unmatched : List String)
    (hassign : assign_one_to_one candidates arpa_ids ais_ids accept_threshold
      = some (ms, unmatched)) :
    ((∀ x, (x ∈ ms.map Match.arpa_id ∨ x ∈ unmatched) ↔ x ∈ arpa_ids)
      ∧ ∀ x, ¬ (x ∈ ms.map Match.arpa_id ∧ x ∈ unmatched))
    ∧ ((∀ x, (x ∈ ms.map Match.ais_id ∨ x ∈ process_unmatched_ais ais_ids ms)
          ↔ x ∈ ais_ids)
      ∧ ∀ x, ¬ (x ∈ ms.map Match.ais_id ∧ x ∈ process_unmatched_ais ais_ids ms)) := by
  rw [assign_one_to_one] at hassign
  split_ifs at hassign with hemp
  · simp only [Option.some.injEq, Prod.mk.injEq] at hassign
    obtain ⟨rfl, rfl⟩ := hassign
    refine ⟨⟨fun x => by simp, fun x => by simp⟩,
      ⟨fun x => by simp [process_unmatched_ais], fun x => by simp⟩⟩
  · cases hce : candidateEntries arpa_ids ais_ids candidates with
    | none => rw [hce] at hassign; exact absurd hassign (by simp)
    | some entries =>
        rw [hce] at hassign
        dsimp only at hassign
        simp only [Option.some.injEq, Prod.mk.injEq] at hassign
        obtain ⟨rfl, rfl⟩ := hassign
        have hids := @acceptedMatches_mem_ids α inst entries arpa_ids ais_ids
          (linear_sum_assignment (entryCost entries) arpa_ids.length ais_ids.length)
          accept_threshold
          (fun q hq => (linear_sum_assignment_mem q hq).1)
          (fun q hq => (linear_sum_assignment_mem q hq).2)
        refine ⟨⟨fun x => ?_, fun x => ?_⟩, ⟨fun x => ?_, fun x => ?_⟩⟩
        · constructor
          · rintro (hx | hx)
            · obtain ⟨mch, hm, rfl⟩ := List.mem_map.mp hx
              exact (hids mch hm).1
            · exact (List.mem_filter.mp hx).1
          · intro hx
            by_cases hmem : x ∈ (acceptedMatches entries arpa_ids ais_ids
                (linear_sum_assignment (entryCost entries) arpa_ids.length
                  ais_ids.length) accept_threshold).map Match.arpa_id
            · exact Or.inl hmem
            · exact Or.inr (List.mem_filter.mpr ⟨hx, by simpa using hmem⟩)
        · rintro ⟨h1, h2⟩
          have := (List.mem_filter.mp h2).2
          simp only [decide_eq_true_eq] at this
          exact this h1
        · constructor
          · rintro (hx | hx)
            · obtain ⟨mch, hm, rfl⟩ := List.mem_map.mp hx
              exact (hids mch hm).2
            · exact (List.mem_filter.mp hx).1
          · intro hx
            by_cases hmem : x ∈ (acceptedMatches entries arpa_ids ais_ids
                (linear_sum_assignment (entryCost entries) arpa_ids.length
                  ais_ids.length) accept_threshold).map Match.ais_id
            · exact Or.inl hmem
            · exact Or.inr (List.mem_filter.mpr ⟨hx, by simpa using hmem⟩)
        · rintro ⟨h1, h2⟩
          have := (List.mem_filter.mp h2).2
          simp only [decide_eq_true_eq] at this
          exact this h1

/-- Witness for claim C5 on the singleton run: the matched ARPA ids plus
the empty unmatched list recover exactly the input ARPA id list. -/
theorem assign_unmatched_complement_witness :
    (assign_one_to_one [candAB] ["A"] ["B"] (1 : ℚ)
        = some ([{ arpa_id := "A", ais_id := "B", score := (1 : ℚ) }], []))
    ∧ (∀ x, (x ∈ ([({ arpa_id := "A", ais_id := "B", score := (1 : ℚ) } : Match ℚ)].map
          Match.arpa_id) ∨ x ∈ ([] : List String)) ↔ x ∈ ["A"]) :=
  have hrun : assign_one_to_one [candAB] ["A"] ["B"] (1 : ℚ)
      = some ([{ arpa_id := "A", ais_id := "B", score := (1 : ℚ) }], []) :=
    assign_singleton 1 1 0 0 0 0 le_rfl
  ⟨hrun, ((assign_unmatched_complement ℚ [candAB] ["A"] ["B"] 1 _ _ hrun).1).1⟩

/-- A candidate whose ARPA id X is absent from the provided ARPA id
list, exercising the assigner's `KeyError` path. -/
def candXB : Candidate ℚ :=
  { arpa_id := "X", ais_id := "B", s_total := 1, d_m := 0, dv_ms := 0,
    dtheta_deg := 0, dt_s := 0 }

/-- Claim C6, counterexample: a non-empty candidate list whose ARPA id is
absent from the provided id lists makes `assign_one_to_one` raise
`KeyError` (modelled as `Option.none`) instead of returning a result over
the union of the id sets. -/
theorem assign_mismatched_ids_cex :
    ([candXB] ≠ ([] : List (Candidate ℚ)) ∧ candXB.arpa_id ∉ ["A"])
    ∧ assign_one_to_one [candXB] ["A"] ["B"] (1 : ℚ) = Option.none :=
  ⟨⟨by simp, by decide⟩, rfl⟩

/-- Claim C6, amended: for every non-empty candidate list containing a
candidate whose arpa_id or ais_id is not in the provided id lists,
`assign_one_to_one` raises `KeyError` (modelled as `Option.none`) rather
than returning a result; it does not operate on the union of the id
sets. -/
theorem assign_mismatched_ids_error (α : Type) [inst : LinearOrderedField α]
    (candidates : List (Candidate α)) (arpa_ids ais_ids : List String)
    (accept_threshold : α)
    (h : ∃ c ∈ candidates, c.arpa_id ∉ arpa_ids ∨ c.ais_id ∉ ais_ids) :
    assign_one_to_one candidates arpa_ids ais_ids accept_threshold
      = Option.none := by
  obtain ⟨c, hc, hor⟩ := h
  have hemp : candidates ≠ [] := by
    intro he
    subst he
    exact absurd hc (List.not_mem_nil c)
  rw [assign_one_to_one, if_neg hemp,
    candidateEntries_eq_none ⟨c, hc,
      hor.imp (fun h' => dictLastIdx_eq_none h') (fun h' => dictLastIdx_eq_none h')⟩]

/-- Witness for claim C6's amended statement at a concrete candidate with
an unknown ARPA id. -/
theorem assign_mismatched_ids_error_witness :
    (∃ c ∈ [candXB], c.arpa_id ∉ ["A"] ∨ c.ais_id ∉ ["B"])
    ∧ assign_one_to_one [candXB] ["A"] ["B"] (2 : ℚ) = Option.none :=
  ⟨⟨candXB, List.mem_singleton.mpr rfl, Or.inl (by decide)⟩,
   assign_mismatched_ids_error ℚ [candXB] ["A"] ["B"] 2
     ⟨candXB, List.mem_singleton.mpr rfl, Or.inl (by decide)⟩⟩

end ListenWS
